import Mathlib

/-!
# Verification of `pkg/v1/env/env.go` (bonedaddy/gold)

Shallow embedding of the environment-client package. The remote Sphere
service, the gRPC transport, docker, and the local filesystem are modelled
as explicit inputs (response values, per-video download oracles, an
association-list filesystem). Numeric protobuf fields (`float32`) are
modelled as exact rationals; the one place where IEEE-754 behaviour is
observable (the `0/0` average in `Results`) is modelled explicitly by `F32`.
`logger.Fatalf` (process termination) and `log.Fatal` are modelled as error
results, since they abort the operation.
-/

set_option autoImplicit false

namespace GoldEnv

/-- The protobuf `oneof Info` of `sphere.Space`, from the four cases matched
in `SpaceShape` / `PotentialsShape` (`env.go`). `unknown` models a `nil` or
unrecognized `Info` (the `default` branch of the Go type switch). Protobuf
`int32` fields are modelled as `Int`, `float32` fields as `ℚ`. -/
inductive SpaceInfo where
  /-- Case `sphere.Space_Box`: `Shape []int32`, `High []float32`, `Low []float32`. -/
  | box (shape : List Int) (high low : List ℚ)
  /-- Case `sphere.Space_Discrete`: `N int32`. -/
  | discrete (n : Int)
  /-- Case `sphere.Space_MultiDiscrete`: `DiscreteSpaces []int32`. -/
  | multiDiscrete (discreteSpaces : List Int)
  /-- Case `sphere.Space_StructSpace`. -/
  | structSpace
  /-- Either `nil` info or an unrecognized variant: the `default` branch. -/
  | unknown
deriving DecidableEq, Repr

/-- The fatal terminations of the shape resolvers (`logger.Fatalf` calls in
`env.go`), modelled as error values: the struct-space message, the
unknown-variant message, and the final `space had no shape` check. -/
inductive SpaceErr where
  | structNotSupported
  | unknownSpaceType
  | noShape
deriving DecidableEq, Repr

/-- Embeds `common.Int32SliceToInt`: converts `[]int32` to `[]int`; the identity in
this embedding, kept to mirror the call sites. -/
def Int32SliceToInt (l : List Int) : List Int := l

/-- Embeds `SpaceShape` (env.go:348-366). The Go function builds `shape` by a type
switch, calling `logger.Fatalf` on struct / unknown variants, then calls
`logger.Fatalf` if the resulting slice is empty. Only the box case can
reach the empty-shape check. -/
def SpaceShape (space : SpaceInfo) : Except SpaceErr (List Int) :=
  let shape : Except SpaceErr (List Int) :=
    match space with
    | .box s _ _ => .ok (Int32SliceToInt s)
    | .discrete _ => .ok [1]
    | .multiDiscrete ds => .ok [(ds.length : Int)]
    | .structSpace => .error .structNotSupported
    | .unknown => .error .unknownSpaceType
  match shape with
  | .error e => .error e
  | .ok s => if s.length = 0 then .error .noShape else .ok s

/-- Embeds `PotentialsShape` (env.go:369-387): same switch, except that a discrete
space contributes its cardinality `[int(s.Discrete.N)]` and a multi-discrete
space contributes the list of its per-dimension sizes. -/
def PotentialsShape (space : SpaceInfo) : Except SpaceErr (List Int) :=
  let shape : Except SpaceErr (List Int) :=
    match space with
    | .box s _ _ => .ok (Int32SliceToInt s)
    | .discrete n => .ok [n]
    | .multiDiscrete ds => .ok (Int32SliceToInt ds)
    | .structSpace => .error .structNotSupported
    | .unknown => .error .unknownSpaceType
  match shape with
  | .error e => .error e
  | .ok s => if s.length = 0 then .error .noShape else .ok s

/-- A generic remote-call / IO failure surfaced by the wrapped operations.
The constructors name the failure points of `Env.Videos`; `remote` stands
for any error returned by a plain RPC (`StepEnv`, `ResetEnv`, `Results`,
...), which the Go code passes through unchanged. -/
inductive RpcErr where
  | remote (msg : String)
  | getVideoErr
  | createErr
  | recvErr
  | closeSendErr
  | writeErr
deriving DecidableEq, Repr

/-- An IEEE-754 `float32` value as observable by this code: a finite value
(modelled as an exact rational, rounding abstracted) or one of the
non-finite values. Only division can produce a non-finite value here. -/
inductive F32 where
  | num (q : ℚ)
  | posInf
  | negInf
  | nan
deriving DecidableEq, Repr

/-- IEEE-754 division of a finite `float32` by the (finite, non-negative)
`float32(count)`: `0/0` is NaN, `x/0` for `x ≠ 0` is a signed infinity, and
otherwise the exact quotient. This models `cumulative / float32(len(...))`
in `Env.Results`. -/
def f32DivByCount (cumulative : ℚ) (count : Nat) : F32 :=
  if count = 0 then
    if cumulative = 0 then F32.nan
    else if 0 < cumulative then F32.posInf
    else F32.negInf
  else F32.num (cumulative / (count : ℚ))

/-- Embeds `sphere.EpisodeResult`: the fields this client reads (`Reward`). The
episode id is the map key in the Go response. -/
structure EpisodeResult where
  episodeId : Int
  reward : ℚ
deriving DecidableEq, Repr

/-- Embeds `sphere.Video`: the field this client reads (`EpisodeId`). -/
structure Video where
  episodeId : Int
deriving DecidableEq, Repr

/-- The response of the remote `Results` RPC. The Go maps
`map[int32]*EpisodeResult` / `map[int32]*Video` are modelled as lists of
their entries (iteration order abstracted; the sums below do not depend on
it). -/
structure ResultsResp where
  episodeResults : List EpisodeResult
  videos : List Video
deriving DecidableEq, Repr

/-- The `Results` struct of `env.go`: episodes, videos and the average
reward. -/
structure Results where
  episodes : List EpisodeResult
  videos : List Video
  averageReward : F32
deriving DecidableEq, Repr

/-- Embeds `Env.Results` (env.go:211-228): passes a remote error through, else sums
the episode rewards and divides by the episode count (with no emptiness
check) to build the `Results` value. -/
def EnvResults (resp : Except RpcErr ResultsResp) : Except RpcErr Results :=
  match resp with
  | .error err => .error err
  | .ok r =>
    let cumulative : ℚ := (r.episodeResults.map EpisodeResult.reward).sum
    let avg := f32DivByCount cumulative r.episodeResults.length
    .ok ⟨r.episodeResults, r.videos, avg⟩

/-- A `tensor.Dense` as this client builds and observes it:
`tensor.New(tensor.WithShape(shape...), tensor.WithBacking(backing))` is
`⟨shape, backing⟩`, and `resp.Observation.Dense()` is the tensor carried by
the remote response. -/
structure Dense where
  shape : List Int
  backing : List ℚ
deriving DecidableEq, Repr

/-- The fields of the embedded `sphere.Environment` that this client reads:
`Id`, `ObservationSpace`, `ActionSpace`. -/
structure Environment where
  id : String
  observationSpace : SpaceInfo
  actionSpace : SpaceInfo

/-- The `Env` wrapper of `env.go`: the embedded remote environment, the
locally cached video paths, and the optional observation normalizer
(`Normalizer.Norm` modelled as the carried function; the gRPC client is an
explicit argument of each operation). -/
structure Env where
  environment : Environment
  videoPaths : List String
  normalizer : Option (Dense → Dense)

/-- The promoted `e.Id` field of the embedded environment. -/
def Env.id (e : Env) : String := e.environment.id

/-- The response of the remote `ResetEnv` RPC. -/
structure ResetResp where
  observation : Dense
deriving DecidableEq, Repr

/-- Embeds `Env.Reset` (env.go:174-185). The source declares the named return
`observation`, stores the normalized tensor into it when a normalizer is
set — and then executes `return t, nil`, returning the raw tensor `t` in
both cases; the assignment to `observation` is dead. -/
def EnvReset (e : Env) (resp : Except RpcErr ResetResp) : Except RpcErr Dense :=
  match resp with
  | .error err => .error err
  | .ok r =>
    let t := r.observation
    let observation := e.normalizer.map fun n => n t
    .ok t

/-- The response of the remote `StepEnv` RPC: observation, reward, done. -/
structure StepResp where
  observation : Dense
  reward : ℚ
  done : Bool
deriving DecidableEq, Repr

/-- The `Outcome` struct of `env.go`: observation, action taken, reward,
done flag. -/
structure Outcome where
  observation : Dense
  action : Int
  reward : ℚ
  done : Bool
deriving DecidableEq, Repr

/-- Embeds `Env.Step` (env.go:150-161): passes a remote error through; otherwise
normalizes the returned observation when a normalizer is set and packs the
`Outcome`. -/
def EnvStep (e : Env) (value : Int) (resp : Except RpcErr StepResp) :
    Except RpcErr Outcome :=
  match resp with
  | .error err => .error err
  | .ok r =>
    let observation := r.observation
    let observation :=
      match e.normalizer with
      | some n => n observation
      | none => observation
    .ok ⟨observation, value, r.reward, r.done⟩

/-- The `BoxSpace` struct of `env.go`: high / low tensors and the shape. -/
structure BoxSpace where
  high : Dense
  low : Dense
  shape : List Int
deriving DecidableEq, Repr

/-- The `(e *Env) BoxSpace()` method (env.go:404-419): when the observation
space is a box, converts its declared `int32` shape to `[]int` and builds
the high / low tensors with that shape over the declared backing arrays;
otherwise returns the `env is not a box space` error. -/
def EnvBoxSpace (e : Env) : Except String BoxSpace :=
  match e.environment.observationSpace with
  | .box shape high low =>
    .ok ⟨⟨shape, high⟩, ⟨shape, low⟩, shape⟩
  | _ => .error "env is not a box space"

/-- Whether `space.GetBox()` returns a non-nil box. -/
def SpaceInfo.isBox : SpaceInfo → Bool
  | .box _ _ _ => true
  | _ => false

/-- A normalizer that doubles every entry, used as witness input. -/
def doubleNorm (d : Dense) : Dense := ⟨d.shape, d.backing.map fun q => 2 * q⟩

/-- Concrete environment carrying the doubling normalizer, used as witness
input. -/
def envNormW : Env := ⟨⟨"env-1", SpaceInfo.discrete 2, SpaceInfo.discrete 2⟩, [], some doubleNorm⟩

/-- Concrete environment whose observation space is a box of shape `[4]`,
used as witness input. -/
def envBoxW : Env :=
  ⟨⟨"env-2", SpaceInfo.box [4] [10, 10, 10, 10] [0, 0, 0, 0], SpaceInfo.discrete 2⟩, [], none⟩

/-- Concrete remote `Results` response with two episodes, used as witness
input. -/
def resultsRespW : ResultsResp := ⟨[⟨0, 1⟩, ⟨1, 2⟩], []⟩

/-- File contents: a list of bytes. -/
abbrev Bytes := List Nat

/-- The local filesystem: an association list from path to contents. Paths
are unique on a real filesystem; the operations below preserve that by
replacing / deleting every matching entry. -/
abbrev FS := List (String × Bytes)

/-- Look a path up in the filesystem. -/
def fsLookup : FS → String → Option Bytes
  | [], _ => none
  | (q, c) :: rest, p => if q = p then some c else fsLookup rest p

/-- Write a file, replacing an existing entry for the path. -/
def fsWrite : FS → String → Bytes → FS
  | [], p, content => [(p, content)]
  | (q, c) :: rest, p, content =>
    if q = p then (p, content) :: rest else (q, c) :: fsWrite rest p content

/-- Delete every entry for a path. -/
def fsDelete : FS → String → FS
  | [], _ => []
  | (q, c) :: rest, p =>
    if q = p then fsDelete rest p else (q, c) :: fsDelete rest p

/-- Embeds `os.Remove`: deletes the file, failing when it does not exist. -/
def osRemove (fs : FS) (p : String) : Except String FS :=
  match fsLookup fs p with
  | some _ => .ok (fsDelete fs p)
  | none => .error "no such file or directory"

/-- The behaviour of the remote side and local IO for one video download in
`Env.Videos`: whether `GetVideo` opens, whether `os.Create` succeeds, the
chunks delivered by `stream.Recv` in order, whether the stream then ends in
a non-EOF receive error (else EOF), whether `CloseSend` succeeds, and the
index of the first failing `f.Write`, if any (a failing write writes
nothing). -/
structure VideoOracle where
  openOk : Bool
  createOk : Bool
  chunks : List Bytes
  recvErr : Bool
  closeSendOk : Bool
  writeFailAt : Option Nat

/-- The receive/write loop of `Env.Videos`: each received chunk is appended
to the file at `fp` by `f.Write`, until the chunk list is exhausted or the
write at index `writeFailAt` fails. -/
def writeChunks (fp : String) : FS → List Bytes → Option Nat → Option RpcErr × FS
  | fs, [], _ => (none, fs)
  | fs, _ :: _, some 0 => (some RpcErr.writeErr, fs)
  | fs, c :: rest, some (n + 1) =>
    writeChunks fp (fsWrite fs fp ((fsLookup fs fp).getD [] ++ c)) rest (some n)
  | fs, c :: rest, none =>
    writeChunks fp (fsWrite fs fp ((fsLookup fs fp).getD [] ++ c)) rest none

/-- One iteration of the video loop in `Env.Videos` (env.go:242-285): open
the `GetVideo` stream, `os.Create` the file (truncating it to empty),
receive and write chunks until EOF (then `CloseSend`) or an error. On a
failed step the error is surfaced and the file keeps whatever was written
(partial files are not cleaned up). -/
def downloadVideo (fs : FS) (fp : String) (o : VideoOracle) : Option RpcErr × FS :=
  if o.openOk = false then (some RpcErr.getVideoErr, fs)
  else if o.createOk = false then (some RpcErr.createErr, fs)
  else
    match writeChunks fp (fsWrite fs fp []) o.chunks o.writeFailAt with
    | (some err, fs2) => (some err, fs2)
    | (none, fs2) =>
      if o.recvErr then (some RpcErr.recvErr, fs2)
      else if o.closeSendOk = false then (some RpcErr.closeSendErr, fs2)
      else (none, fs2)

/-- Embeds `fmt.Sprintf("%s-episode%d.mp4", e.Id, video.EpisodeId)`. -/
def videoFileName (eid : String) (episodeId : Int) : String :=
  eid ++ "-episode" ++ toString episodeId ++ ".mp4"

/-- Embeds `filepath.Join(dir, name)` (path cleaning abstracted: both arguments
are already clean here). -/
def joinPath (dir name : String) : String := dir ++ "/" ++ name

/-- The default-path rule of `Env.Videos`: an empty `path` argument becomes
`./results/<env id>`. -/
def resolveVideosPath (eid path : String) : String :=
  if path = "" then "./results/" ++ eid else path

/-- The full path `Env.Videos` writes for one video reference:
`filepath.Join(path, fmt.Sprintf("%s-episode%d.mp4", e.Id, video.EpisodeId))`. -/
def videoPathOf (eid dir : String) (v : Video) : String :=
  joinPath dir (videoFileName eid v.episodeId)

/-- The `for _, video := range results.Videos` loop of `Env.Videos`: each
video is downloaded to its file and the written paths are appended to the
accumulator; the first failing download aborts the loop with its error. -/
def videosLoop (eid dir : String) (fetch : Int → VideoOracle) :
    List Video → FS → List String → Except RpcErr (List String) × FS
  | [], fs, acc => (.ok acc, fs)
  | v :: rest, fs, acc =>
    match downloadVideo fs (videoPathOf eid dir v) (fetch v.episodeId) with
    | (some err, fs2) => (.error err, fs2)
    | (none, fs2) =>
      videosLoop eid dir fetch rest fs2 (acc ++ [videoPathOf eid dir v])

/-- Embeds `Env.Videos` (env.go:242-285): defaults the path, fetches `Results`,
downloads every referenced video, and only on full success stores the
aggregated path list into `e.VideoPaths` and returns it. Returns the
result, the (possibly updated) `Env`, and the resulting filesystem. -/
def EnvVideos (e : Env) (path : String) (resp : Except RpcErr ResultsResp)
    (fetch : Int → VideoOracle) (fs : FS) :
    Except RpcErr (List String) × Env × FS :=
  match EnvResults resp with
  | .error err => (.error err, e, fs)
  | .ok results =>
    match videosLoop e.id (resolveVideosPath e.id path) fetch results.videos fs [] with
    | (.error err, fs2) => (.error err, e, fs2)
    | (.ok paths, fs2) => (.ok paths, { e with videoPaths := paths }, fs2)

/-- The removal loop of `Env.Clean` (env.go:325-334): removes each path of
`VideoPaths` in slice order; a failed `os.Remove` hits `log.Fatal`,
modelled as an error result. -/
def cleanLoop : List String → FS → Except String FS
  | [], fs => .ok fs
  | p :: rest, fs =>
    match osRemove fs p with
    | .error msg => .error msg
    | .ok fs2 => cleanLoop rest fs2

/-- Embeds `Env.Clean`: runs the removal loop over `e.VideoPaths`; the `Env` value
itself (in particular `VideoPaths`) is never modified. -/
def EnvClean (e : Env) (fs : FS) : Except String (Env × FS) :=
  match cleanLoop e.videoPaths fs with
  | .error msg => .error msg
  | .ok fs2 => .ok (e, fs2)

/-- The outcome of one attempt of the bootstrap retry closure in
`NewLocalServer` (env.go:64-77): `grpc.Dial` fails (no connection is
created), or the dial succeeds but the `Info` liveness request fails
(returning a nil response alongside the error), or both succeed. -/
inductive AttemptOutcome where
  | dialErr
  | infoErr
  | ok
deriving DecidableEq, Repr

/-- How the bootstrap of `NewLocalServer` ends: `connected` (an attempt's
dial and `Info` both succeed), `exhausted` (the retry budget runs out and
`NewLocalServer` returns the `Could not connect to docker` error wrapping
the last retry error), or `panicked` (a runtime panic: after a failed
`Info` the closure executes `logger.Successf("connected to server %q",
resp.ServerName)` on the nil response before reaching `return err`,
dereferencing a nil pointer). -/
inductive RetryResult where
  | connected
  | exhausted
  | panicked
deriving DecidableEq, Repr

/-- The `pool.Retry` loop of `NewLocalServer` with its attempt budget given
as the list of attempt outcomes it will observe: a dial error makes the
closure return early (no connection was created) and the loop retry; a
successful dial is followed by the `Info` request and then — before the
error check — by the success log that dereferences the response, so a
failed `Info` panics the process right there and the loop never retries;
an exhausted budget (only reachable through dial failures) yields the
connect error. The second component counts connections that were opened
and never closed by the code other than the one retained on success — the
closure contains no `conn.Close()` call on any path, so the attempt that
panics after its failed `Info` abandons its open connection. -/
def retryLoop : List AttemptOutcome → RetryResult × Nat
  | [] => (.exhausted, 0)
  | .dialErr :: rest => retryLoop rest
  | .infoErr :: _ => (.panicked, 1)
  | .ok :: _ => (.connected, 0)

/-- Concrete environment used as witness input for `Env.Videos`. -/
def videosEnvW : Env := ⟨⟨"e1", SpaceInfo.discrete 1, SpaceInfo.discrete 1⟩, [], none⟩

/-- Concrete `Results` response with two video references, used as witness
input for `Env.Videos`. -/
def videosRespW : ResultsResp := ⟨[⟨0, 1⟩], [⟨0⟩, ⟨1⟩]⟩

/-- Per-video oracle where every download succeeds with chunks `[1, 2]` and
`[3]`, used as witness input. -/
def videosFetchW : Int → VideoOracle := fun _ => ⟨true, true, [[1, 2], [3]], false, true, none⟩

/-- The paths `Env.Videos` writes in the witness run. -/
def videosPathsW : List String := ["vids/e1-episode0.mp4", "vids/e1-episode1.mp4"]

/-- Concrete environment with cached video paths, used as witness input for
`Env.Clean`. -/
def cleanEnvW : Env := ⟨⟨"e1", SpaceInfo.discrete 1, SpaceInfo.discrete 1⟩, ["a", "b"], none⟩

/-- Concrete filesystem holding the witness video files and a bystander. -/
def cleanFsW : FS := [("a", [1]), ("b", [2]), ("c", [3])]

/-- The filesystem left by the witness `Env.Clean` run. -/
def cleanFsW2 : FS := [("c", [3])]

/-! ## Theorems -/

/-- C2 counterexample: when the remote reports zero episodes, `Env.Results`
succeeds and silently returns `AverageReward = 0/0 = NaN` — a
floating-point-exceptional value — rather than signaling a
`NoEpisodesError` or returning a defined zero value. -/
theorem results_empty_nan_counterexample :
    EnvResults (Except.ok ⟨[], []⟩) = Except.ok ⟨[], [], F32.nan⟩
    ∧ F32.nan ≠ F32.num 0 :=
  ⟨rfl, by decide⟩

/-- C2 (amended): for a successful `Results()` call with at least one
episode, `AverageReward` is the arithmetic mean of the reported episode
rewards; when the remote reports zero episodes the code silently computes
`0/0` and returns NaN instead of signaling `NoEpisodesError` or a defined
zero; remote errors are passed through. -/
theorem results_mean_amended :
    (∀ r : ResultsResp, r.episodeResults ≠ [] →
      EnvResults (Except.ok r)
        = Except.ok ⟨r.episodeResults, r.videos,
            F32.num ((r.episodeResults.map EpisodeResult.reward).sum
              / (r.episodeResults.length : ℚ))⟩)
    ∧ (∀ r : ResultsResp, r.episodeResults = [] →
      EnvResults (Except.ok r) = Except.ok ⟨[], r.videos, F32.nan⟩)
    ∧ (∀ err, EnvResults (Except.error err) = Except.error err) := by
  refine ⟨?_, ?_, fun _ => rfl⟩
  · intro r h
    have hlen : r.episodeResults.length ≠ 0 := by
      simpa [List.length_eq_zero] using h
    simp [EnvResults, f32DivByCount, hlen]
  · intro r h
    simp [EnvResults, f32DivByCount, h]

/-- C2 witness: on a response with episodes of rewards 1 and 2, the average
is their arithmetic mean. -/
theorem results_mean_amended_witness :
    resultsRespW.episodeResults ≠ []
    ∧ EnvResults (Except.ok resultsRespW)
        = Except.ok ⟨resultsRespW.episodeResults, resultsRespW.videos,
            F32.num ((resultsRespW.episodeResults.map EpisodeResult.reward).sum
              / (resultsRespW.episodeResults.length : ℚ))⟩ :=
  ⟨by decide, results_mean_amended.1 resultsRespW (by decide)⟩

/-- C1: `Env.Reset` returns the RAW remote observation even when a
normalizer is set: on an environment carrying the doubling normalizer and a
remote observation `[1, 2]`, it returns `[1, 2]`, although the normalizer
would have produced `[2, 4]` (the source stores the normalized tensor into
the named return `observation` and then executes `return t, nil`, making
the assignment dead). -/
theorem reset_returns_raw_observation :
    EnvReset envNormW (Except.ok ⟨⟨[2], [1, 2]⟩⟩) = Except.ok ⟨[2], [1, 2]⟩
    ∧ doubleNorm ⟨[2], [1, 2]⟩ = ⟨[2], [2, 4]⟩
    ∧ (⟨[2], [1, 2]⟩ : Dense) ≠ ⟨[2], [2, 4]⟩ :=
  ⟨rfl, by norm_num [doubleNorm], by decide⟩

/-- C7: a successful `Step(a)` returns an `Outcome` whose action is `a`,
whose reward and done flag are the remote response's, and whose observation
is the remote observation passed through the normalizer when one is set
(raw otherwise); remote errors are passed through. -/
theorem step_outcome_fields (e : Env) (value : Int) (r : StepResp) :
    (e.normalizer = none →
      EnvStep e value (Except.ok r)
        = Except.ok ⟨r.observation, value, r.reward, r.done⟩)
    ∧ (∀ n, e.normalizer = some n →
      EnvStep e value (Except.ok r)
        = Except.ok ⟨n r.observation, value, r.reward, r.done⟩)
    ∧ (∀ err, EnvStep e value (Except.error err) = Except.error err) := by
  refine ⟨?_, ?_, fun _ => rfl⟩
  · intro h
    simp [EnvStep, h]
  · intro n h
    simp [EnvStep, h]

/-- C7 witness: stepping with action 1 under the doubling normalizer packs
the normalized observation, the action, and the remote reward / done
flag. -/
theorem step_outcome_fields_witness :
    envNormW.normalizer = some doubleNorm
    ∧ EnvStep envNormW 1 (Except.ok ⟨⟨[2], [1, 2]⟩, 5, true⟩)
        = Except.ok ⟨doubleNorm ⟨[2], [1, 2]⟩, 1, 5, true⟩ :=
  ⟨rfl, (step_outcome_fields envNormW 1 ⟨⟨[2], [1, 2]⟩, 5, true⟩).2.1 doubleNorm rfl⟩

/-- C8: for an environment whose observation space is a box with shape `[4]`
and high / low arrays of length 4, `BoxSpace()` succeeds with `Shape = [4]`
and high / low tensors built with that shape over the given arrays (each
backed by the 4 given values); for an environment whose observation space
is not a box it returns the error. -/
theorem box_space_roundtrip :
    (∀ (e : Env) (high low : List ℚ),
      high.length = 4 → low.length = 4 →
      e.environment.observationSpace = SpaceInfo.box [4] high low →
      EnvBoxSpace e = Except.ok ⟨⟨[4], high⟩, ⟨[4], low⟩, [4]⟩
        ∧ (⟨[4], high⟩ : Dense).backing.length = 4
        ∧ (⟨[4], low⟩ : Dense).backing.length = 4)
    ∧ (∀ e : Env, e.environment.observationSpace.isBox = false →
      EnvBoxSpace e = Except.error "env is not a box space") := by
  constructor
  · intro e high low hh hl hsp
    exact ⟨by simp [EnvBoxSpace, hsp], hh, hl⟩
  · intro e h
    cases hsp : e.environment.observationSpace with
    | box shape high low =>
      rw [hsp] at h
      simp [SpaceInfo.isBox] at h
    | discrete n => simp [EnvBoxSpace, hsp]
    | multiDiscrete ds => simp [EnvBoxSpace, hsp]
    | structSpace => simp [EnvBoxSpace, hsp]
    | unknown => simp [EnvBoxSpace, hsp]

/-- C8 witness: the box observation space with shape `[4]`, highs 10 and
lows 0 reconstructs with `Shape = [4]`. -/
theorem box_space_roundtrip_witness :
    EnvBoxSpace envBoxW
      = Except.ok ⟨⟨[4], [10, 10, 10, 10]⟩, ⟨[4], [0, 0, 0, 0]⟩, [4]⟩ :=
  (box_space_roundtrip.1 envBoxW [10, 10, 10, 10] [0, 0, 0, 0]
    (by decide) (by decide) rfl).1

theorem fsLookup_fsWrite_self (fs : FS) (p : String) (c : Bytes) :
    fsLookup (fsWrite fs p c) p = some c := by
  induction fs with
  | nil => simp [fsWrite, fsLookup]
  | cons kv rest ih =>
    obtain ⟨q, d⟩ := kv
    by_cases h : q = p
    · simp [fsWrite, fsLookup, h]
    · simp [fsWrite, fsLookup, h, ih]

theorem fsLookup_fsWrite_ne (fs : FS) (p : String) (c : Bytes) (q : String)
    (hq : q ≠ p) : fsLookup (fsWrite fs p c) q = fsLookup fs q := by
  have hpq : ¬p = q := fun h => hq h.symm
  induction fs with
  | nil => simp [fsWrite, fsLookup, hpq]
  | cons kv rest ih =>
    obtain ⟨k, d⟩ := kv
    by_cases h : k = p
    · subst h
      simp [fsWrite, fsLookup, hpq]
    · simp [fsWrite, fsLookup, h, ih]

theorem fsLookup_fsDelete_self (fs : FS) (p : String) :
    fsLookup (fsDelete fs p) p = none := by
  induction fs with
  | nil => simp [fsDelete, fsLookup]
  | cons kv rest ih =>
    obtain ⟨q, d⟩ := kv
    by_cases h : q = p
    · simp [fsDelete, h, ih]
    · simp [fsDelete, fsLookup, h, ih]

theorem fsLookup_fsDelete_ne (fs : FS) (p q : String) (hq : q ≠ p) :
    fsLookup (fsDelete fs p) q = fsLookup fs q := by
  have hpq : ¬p = q := fun h => hq h.symm
  induction fs with
  | nil => simp [fsDelete]
  | cons kv rest ih =>
    obtain ⟨k, d⟩ := kv
    by_cases h : k = p
    · subst h
      simp [fsDelete, fsLookup, hpq, ih]
    · simp [fsDelete, fsLookup, h, ih]

theorem writeChunks_cons_none (fp : String) (fs : FS) (c : Bytes) (rest : List Bytes) :
    writeChunks fp fs (c :: rest) none
      = writeChunks fp (fsWrite fs fp ((fsLookup fs fp).getD [] ++ c)) rest none := rfl

theorem writeChunks_cons_succ (fp : String) (fs : FS) (c : Bytes) (rest : List Bytes)
    (n : Nat) :
    writeChunks fp fs (c :: rest) (some (n + 1))
      = writeChunks fp (fsWrite fs fp ((fsLookup fs fp).getD [] ++ c)) rest (some n) := rfl

theorem writeChunks_ok (fp : String) (chunks : List Bytes) :
    ∀ (fs : FS) (failAt : Option Nat) (init : Bytes),
      fsLookup fs fp = some init →
      (writeChunks fp fs chunks failAt).1 = none →
      fsLookup (writeChunks fp fs chunks failAt).2 fp = some (init ++ chunks.flatten)
      ∧ ∀ q, q ≠ fp → fsLookup (writeChunks fp fs chunks failAt).2 q = fsLookup fs q := by
  induction chunks with
  | nil =>
    intro fs failAt init hinit hok
    constructor
    · simpa [writeChunks] using hinit
    · intro q hq
      simp [writeChunks]
  | cons c rest ih =>
    intro fs failAt init hinit hok
    have step :
        ∀ failAt2 : Option Nat,
          (writeChunks fp (fsWrite fs fp (init ++ c)) rest failAt2).1 = none →
          fsLookup (writeChunks fp (fsWrite fs fp (init ++ c)) rest failAt2).2 fp
            = some (init ++ (c :: rest).flatten)
          ∧ ∀ q, q ≠ fp →
              fsLookup (writeChunks fp (fsWrite fs fp (init ++ c)) rest failAt2).2 q
                = fsLookup fs q := by
      intro failAt2 hok2
      obtain ⟨h1, h2⟩ :=
        ih (fsWrite fs fp (init ++ c)) failAt2 (init ++ c)
          (fsLookup_fsWrite_self fs fp (init ++ c)) hok2
      refine ⟨?_, ?_⟩
      · rw [h1]
        simp [List.flatten_cons, List.append_assoc]
      · intro q hq
        rw [h2 q hq, fsLookup_fsWrite_ne fs fp (init ++ c) q hq]
    cases failAt with
    | none =>
      rw [writeChunks_cons_none, hinit] at hok ⊢
      exact step none hok
    | some n =>
      cases n with
      | zero => simp [writeChunks] at hok
      | succ m =>
        rw [writeChunks_cons_succ, hinit] at hok ⊢
        exact step (some m) hok

theorem downloadVideo_ok (fs : FS) (fp : String) (o : VideoOracle)
    (hok : (downloadVideo fs fp o).1 = none) :
    fsLookup (downloadVideo fs fp o).2 fp = some o.chunks.flatten
    ∧ ∀ q, q ≠ fp → fsLookup (downloadVideo fs fp o).2 q = fsLookup fs q := by
  by_cases h1 : o.openOk = false
  · simp [downloadVideo, h1] at hok
  · by_cases h2 : o.createOk = false
    · simp [downloadVideo, h1, h2] at hok
    · rcases hw : writeChunks fp (fsWrite fs fp []) o.chunks o.writeFailAt with ⟨err, fs2⟩
      cases err with
      | some e => simp [downloadVideo, h1, h2, hw] at hok
      | none =>
        obtain ⟨hc, hf⟩ :=
          writeChunks_ok fp o.chunks (fsWrite fs fp []) o.writeFailAt []
            (fsLookup_fsWrite_self fs fp []) (by rw [hw])
        rw [hw] at hc hf
        by_cases h3 : o.recvErr
        · simp [downloadVideo, h1, h2, hw, h3] at hok
        · by_cases h4 : o.closeSendOk = false
          · simp [downloadVideo, h1, h2, hw, h3, h4] at hok
          · constructor
            · simpa [downloadVideo, h1, h2, hw, h3, h4] using hc
            · intro q hq
              have := hf q hq
              rw [fsLookup_fsWrite_ne fs fp [] q hq] at this
              simpa [downloadVideo, h1, h2, hw, h3, h4] using this

theorem videosLoop_cons (eid dir : String) (fetch : Int → VideoOracle) (v : Video)
    (rest : List Video) (fs : FS) (acc : List String) :
    videosLoop eid dir fetch (v :: rest) fs acc
      = match downloadVideo fs (videoPathOf eid dir v) (fetch v.episodeId) with
        | (some err, fs2) => (Except.error err, fs2)
        | (none, fs2) =>
          videosLoop eid dir fetch rest fs2 (acc ++ [videoPathOf eid dir v]) := rfl

theorem videosLoop_ok_paths (eid dir : String) (fetch : Int → VideoOracle)
    (videos : List Video) :
    ∀ (fs : FS) (acc paths : List String) (fs2 : FS),
      videosLoop eid dir fetch videos fs acc = (Except.ok paths, fs2) →
      paths = acc ++ videos.map (videoPathOf eid dir) := by
  induction videos with
  | nil =>
    intro fs acc paths fs2 h
    simp only [videosLoop, Prod.mk.injEq, Except.ok.injEq] at h
    rw [← h.1]
    simp
  | cons v rest ih =>
    intro fs acc paths fs2 h
    rw [videosLoop_cons] at h
    rcases hd : downloadVideo fs (videoPathOf eid dir v) (fetch v.episodeId) with ⟨err, fsx⟩
    rw [hd] at h
    cases err with
    | some e => exact Except.noConfusion (congrArg Prod.fst h)
    | none =>
      rw [ih fsx (acc ++ [videoPathOf eid dir v]) paths fs2 h]
      simp

theorem videosLoop_frame (eid dir : String) (fetch : Int → VideoOracle)
    (videos : List Video) :
    ∀ (fs : FS) (acc paths : List String) (fs2 : FS),
      videosLoop eid dir fetch videos fs acc = (Except.ok paths, fs2) →
      ∀ q, q ∉ videos.map (videoPathOf eid dir) → fsLookup fs2 q = fsLookup fs q := by
  induction videos with
  | nil =>
    intro fs acc paths fs2 h q hq
    simp only [videosLoop, Prod.mk.injEq, Except.ok.injEq] at h
    rw [← h.2]
  | cons v rest ih =>
    intro fs acc paths fs2 h q hq
    rw [videosLoop_cons] at h
    rcases hd : downloadVideo fs (videoPathOf eid dir v) (fetch v.episodeId) with ⟨err, fsx⟩
    rw [hd] at h
    cases err with
    | some e => exact Except.noConfusion (congrArg Prod.fst h)
    | none =>
      simp only [List.map_cons, List.mem_cons, not_or] at hq
      obtain ⟨hq1, hq2⟩ := hq
      rw [ih fsx (acc ++ [videoPathOf eid dir v]) paths fs2 h q hq2]
      have hdok : (downloadVideo fs (videoPathOf eid dir v) (fetch v.episodeId)).1 = none := by
        rw [hd]
      have hfr := (downloadVideo_ok fs (videoPathOf eid dir v) (fetch v.episodeId) hdok).2 q hq1
      rw [hd] at hfr
      exact hfr

theorem videosLoop_content (eid dir : String) (fetch : Int → VideoOracle)
    (videos : List Video) :
    ∀ (fs : FS) (acc paths : List String) (fs2 : FS),
      videosLoop eid dir fetch videos fs acc = (Except.ok paths, fs2) →
      (videos.map (videoPathOf eid dir)).Nodup →
      ∀ v, v ∈ videos →
        fsLookup fs2 (videoPathOf eid dir v) = some (fetch v.episodeId).chunks.flatten := by
  induction videos with
  | nil =>
    intro fs acc paths fs2 h hnd v hv
    exact absurd hv (List.not_mem_nil v)
  | cons w rest ih =>
    intro fs acc paths fs2 h hnd v hv
    rw [videosLoop_cons] at h
    rcases hd : downloadVideo fs (videoPathOf eid dir w) (fetch w.episodeId) with ⟨err, fsx⟩
    rw [hd] at h
    cases err with
    | some e => exact Except.noConfusion (congrArg Prod.fst h)
    | none =>
      have hdok : (downloadVideo fs (videoPathOf eid dir w) (fetch w.episodeId)).1 = none := by
        rw [hd]
      simp only [List.map_cons, List.nodup_cons] at hnd
      obtain ⟨hw_notin, hnd_rest⟩ := hnd
      rcases List.mem_cons.mp hv with hvw | hvr
      · subst hvw
        rw [videosLoop_frame eid dir fetch rest fsx (acc ++ [videoPathOf eid dir v]) paths fs2 h
          (videoPathOf eid dir v) hw_notin]
        have hc := (downloadVideo_ok fs (videoPathOf eid dir v) (fetch v.episodeId) hdok).1
        rw [hd] at hc
        exact hc
      · exact ih fsx (acc ++ [videoPathOf eid dir w]) paths fs2 h hnd_rest v hvr

theorem envVideos_ok_inv (e : Env) (path : String) (r : ResultsResp)
    (fetch : Int → VideoOracle) (fs : FS) (paths : List String)
    (hok : (EnvVideos e path (Except.ok r) fetch fs).1 = Except.ok paths) :
    videosLoop e.id (resolveVideosPath e.id path) fetch r.videos fs []
      = (Except.ok paths, (EnvVideos e path (Except.ok r) fetch fs).2.2) := by
  rcases hv : videosLoop e.id (resolveVideosPath e.id path) fetch r.videos fs [] with ⟨res, fs2⟩
  cases res with
  | error err =>
    have h1 : (EnvVideos e path (Except.ok r) fetch fs).1 = Except.error err := by
      simp [EnvVideos, EnvResults, hv]
    rw [h1] at hok
    exact Except.noConfusion hok
  | ok ps =>
    have h1 : (EnvVideos e path (Except.ok r) fetch fs).1 = Except.ok ps := by
      simp [EnvVideos, EnvResults, hv]
    have h2 : (EnvVideos e path (Except.ok r) fetch fs).2.2 = fs2 := by
      simp [EnvVideos, EnvResults, hv]
    rw [h1] at hok
    cases hok
    rw [h2]

/-- C3 counterexample: `SpaceShape` and `PotentialsShape` do NOT agree on
multi-discrete spaces. On `MultiDiscrete [3, 5]` the former returns the
single-element list `[2]` (the number of sub-spaces) while the latter
returns the per-dimension sizes `[3, 5]`. -/
theorem potentials_multidiscrete_counterexample :
    SpaceShape (SpaceInfo.multiDiscrete [3, 5]) = Except.ok [2]
    ∧ PotentialsShape (SpaceInfo.multiDiscrete [3, 5]) = Except.ok [3, 5]
    ∧ ([2] : List Int) ≠ [3, 5] :=
  ⟨rfl, rfl, by decide⟩

/-- C3 (amended): `PotentialsShape` agrees with `SpaceShape` on box, struct
and unknown variants; on a discrete space it returns the cardinality `[N]`
where `SpaceShape` returns `[1]`; on a multi-discrete space it returns the
per-dimension size list (failing with `noShape` when that list is empty)
where `SpaceShape` returns the single-element list holding the number of
sub-spaces. -/
theorem potentials_vs_space_shape_amended :
    (∀ shape high low,
      PotentialsShape (SpaceInfo.box shape high low)
        = SpaceShape (SpaceInfo.box shape high low))
    ∧ (∀ n, SpaceShape (SpaceInfo.discrete n) = Except.ok [1]
        ∧ PotentialsShape (SpaceInfo.discrete n) = Except.ok [n])
    ∧ (∀ ds, SpaceShape (SpaceInfo.multiDiscrete ds) = Except.ok [(ds.length : Int)]
        ∧ PotentialsShape (SpaceInfo.multiDiscrete ds)
            = if ds.length = 0 then Except.error SpaceErr.noShape else Except.ok ds)
    ∧ PotentialsShape SpaceInfo.structSpace = SpaceShape SpaceInfo.structSpace
    ∧ PotentialsShape SpaceInfo.unknown = SpaceShape SpaceInfo.unknown :=
  ⟨fun _ _ _ => rfl, fun _ => ⟨rfl, rfl⟩, fun _ => ⟨rfl, rfl⟩, rfl, rfl⟩

/-- C3 witness: on the discrete space of cardinality 6, `SpaceShape`
returns `[1]` and `PotentialsShape` returns `[6]`. -/
theorem potentials_vs_space_shape_amended_witness :
    SpaceShape (SpaceInfo.discrete 6) = Except.ok [1]
    ∧ PotentialsShape (SpaceInfo.discrete 6) = Except.ok [6] :=
  potentials_vs_space_shape_amended.2.1 6

/-- C4 counterexample: a box space whose declared shape list is empty is a
supported variant on which `SpaceShape` does not return a non-empty
dimension sequence: it terminates with the `space had no shape` fatal
error. -/
theorem space_shape_empty_box_counterexample :
    SpaceShape (SpaceInfo.box [] [] []) = Except.error SpaceErr.noShape :=
  rfl

/-- C4 (amended): discrete and multi-discrete spaces always resolve to a
non-empty dimension sequence; a box space resolves to its (non-empty)
declared shape and terminates with the `noShape` fatal error when the
declared shape is empty; struct and unrecognized variants terminate with
the unsupported-space / unknown-space fatal errors; no successful result is
ever the empty sequence. -/
theorem space_shape_amended :
    (∀ n, SpaceShape (SpaceInfo.discrete n) = Except.ok [1])
    ∧ (∀ ds, SpaceShape (SpaceInfo.multiDiscrete ds) = Except.ok [(ds.length : Int)])
    ∧ (∀ shape high low, shape ≠ ([] : List Int) →
        SpaceShape (SpaceInfo.box shape high low) = Except.ok shape)
    ∧ (∀ high low, SpaceShape (SpaceInfo.box [] high low) = Except.error SpaceErr.noShape)
    ∧ SpaceShape SpaceInfo.structSpace = Except.error SpaceErr.structNotSupported
    ∧ SpaceShape SpaceInfo.unknown = Except.error SpaceErr.unknownSpaceType
    ∧ (∀ s l, SpaceShape s = Except.ok l → l ≠ []) := by
  refine ⟨fun _ => rfl, fun _ => rfl, ?_, fun _ _ => rfl, rfl, rfl, ?_⟩
  · intro shape high low hne
    show (if shape.length = 0 then Except.error SpaceErr.noShape
          else Except.ok shape) = Except.ok shape
    rw [if_neg]
    simpa [List.length_eq_zero] using hne
  · intro s l h
    cases s with
    | box shape high low =>
      by_cases hz : shape.length = 0
      · simp only [SpaceShape, Int32SliceToInt, if_pos hz] at h
        exact Except.noConfusion h
      · simp only [SpaceShape, Int32SliceToInt, if_neg hz] at h
        cases h
        simpa [List.length_eq_zero] using hz
    | discrete n =>
      cases h
      simp
    | multiDiscrete ds =>
      cases h
      simp
    | structSpace => cases h
    | unknown => cases h

/-- C4 witness: a box space with shape `[4]` resolves to the non-empty
sequence `[4]`. -/
theorem space_shape_amended_witness :
    SpaceShape (SpaceInfo.box [4] [] []) = Except.ok [4] :=
  space_shape_amended.2.2.1 [4] [] [] (by decide)

/-- C5: `VideoPaths` is assigned only by a fully successful `Videos` call:
when `Env.Videos` returns an error at any point the `Env` (in particular
its `VideoPaths` field) is returned unchanged, and when it succeeds the
`Env` carries exactly the returned path slice in `VideoPaths`. -/
theorem videos_frame_video_paths (e : Env) (path : String)
    (resp : Except RpcErr ResultsResp) (fetch : Int → VideoOracle) (fs : FS) :
    (EnvVideos e path resp fetch fs).2.1
      = match (EnvVideos e path resp fetch fs).1 with
        | .error _ => e
        | .ok paths => { e with videoPaths := paths } := by
  cases resp with
  | error err => rfl
  | ok r =>
    rcases hv : videosLoop e.id (resolveVideosPath e.id path) fetch r.videos fs [] with ⟨res, fs2⟩
    cases res with
    | error err => simp [EnvVideos, EnvResults, hv]
    | ok ps => simp [EnvVideos, EnvResults, hv]

/-- C5 witness: on the concrete successful run, the returned `Env` carries
exactly the returned paths in `VideoPaths`. -/
theorem videos_frame_video_paths_witness :
    (EnvVideos videosEnvW "vids" (Except.ok videosRespW) videosFetchW []).2.1
      = match (EnvVideos videosEnvW "vids" (Except.ok videosRespW) videosFetchW []).1 with
        | .error _ => videosEnvW
        | .ok paths => { videosEnvW with videoPaths := paths } :=
  videos_frame_video_paths videosEnvW "vids" (Except.ok videosRespW) videosFetchW []

/-- C9: a successful `Videos(path)` call returns, in loop order, the path
of one file per video reference, each named
`<dir>/<env id>-episode<episode id>.mp4`; the file written for each video
reference contains exactly the stream's chunks concatenated in the order
received (stopping at end-of-stream); and an empty `path` argument resolves
to the default directory `./results/<env id>`. -/
theorem videos_downloads_chunks (e : Env) (path : String)
    (resp : Except RpcErr ResultsResp) (fetch : Int → VideoOracle) (fs : FS)
    (r : ResultsResp) (paths : List String)
    (hresp : resp = Except.ok r)
    (hok : (EnvVideos e path resp fetch fs).1 = Except.ok paths)
    (hnd : paths.Nodup) :
    paths = r.videos.map (videoPathOf e.id (resolveVideosPath e.id path))
    ∧ (∀ v, v ∈ r.videos →
        fsLookup (EnvVideos e path resp fetch fs).2.2
            (videoPathOf e.id (resolveVideosPath e.id path) v)
          = some (fetch v.episodeId).chunks.flatten)
    ∧ resolveVideosPath e.id "" = "./results/" ++ e.id := by
  subst hresp
  have hinv := envVideos_ok_inv e path r fetch fs paths hok
  have hpaths := videosLoop_ok_paths e.id (resolveVideosPath e.id path) fetch r.videos
    fs [] paths (EnvVideos e path (Except.ok r) fetch fs).2.2 hinv
  rw [List.nil_append] at hpaths
  refine ⟨hpaths, ?_, rfl⟩
  intro v hv
  exact videosLoop_content e.id (resolveVideosPath e.id path) fetch r.videos
    fs [] paths (EnvVideos e path (Except.ok r) fetch fs).2.2 hinv
    (by rw [← hpaths]; exact hnd) v hv

/-- C9 witness: with two video references (episodes 0 and 1) and streams
delivering chunks `[1, 2]` then `[3]`, `Videos("vids")` returns the two
episode file paths and the file of episode 0 holds `[1, 2, 3]`. -/
theorem videos_downloads_chunks_witness :
    (EnvVideos videosEnvW "vids" (Except.ok videosRespW) videosFetchW []).1
        = Except.ok videosPathsW
    ∧ videosPathsW
        = videosRespW.videos.map
            (videoPathOf videosEnvW.id (resolveVideosPath videosEnvW.id "vids"))
    ∧ fsLookup (EnvVideos videosEnvW "vids" (Except.ok videosRespW) videosFetchW []).2.2
          (videoPathOf videosEnvW.id (resolveVideosPath videosEnvW.id "vids") ⟨0⟩)
        = some (videosFetchW 0).chunks.flatten := by
  have hok : (EnvVideos videosEnvW "vids" (Except.ok videosRespW) videosFetchW []).1
      = Except.ok videosPathsW := rfl
  obtain ⟨h1, h2, h3⟩ := videos_downloads_chunks videosEnvW "vids" (Except.ok videosRespW)
    videosFetchW [] videosRespW videosPathsW rfl hok (by decide)
  exact ⟨hok, h1, h2 ⟨0⟩ (by decide)⟩

theorem cleanLoop_cons (p : String) (rest : List String) (fs : FS) :
    cleanLoop (p :: rest) fs
      = match osRemove fs p with
        | .error msg => Except.error msg
        | .ok fs2 => cleanLoop rest fs2 := rfl

theorem cleanLoop_ok (paths : List String) :
    ∀ (fs fs2 : FS), cleanLoop paths fs = Except.ok fs2 →
      (∀ p, p ∈ paths → fsLookup fs2 p = none)
      ∧ (∀ q, q ∉ paths → fsLookup fs2 q = fsLookup fs q) := by
  induction paths with
  | nil =>
    intro fs fs2 h
    cases h
    exact ⟨fun p hp => absurd hp (List.not_mem_nil p), fun q hq => rfl⟩
  | cons p rest ih =>
    intro fs fs2 h
    rw [cleanLoop_cons] at h
    rcases ho : osRemove fs p with msg | fs1
    · rw [ho] at h
      exact Except.noConfusion h
    · rw [ho] at h
      obtain ⟨ih1, ih2⟩ := ih fs1 fs2 h
      have hdel : fs1 = fsDelete fs p := by
        unfold osRemove at ho
        rcases hl : fsLookup fs p with _ | c
        · rw [hl] at ho
          exact Except.noConfusion ho
        · rw [hl] at ho
          injection ho with ho
          exact ho.symm
      constructor
      · intro x hx
        rcases List.mem_cons.mp hx with hxp | hxr
        · subst hxp
          by_cases hxin : x ∈ rest
          · exact ih1 x hxin
          · rw [ih2 x hxin, hdel]
            exact fsLookup_fsDelete_self fs x
        · exact ih1 x hxr
      · intro q hq
        simp only [List.mem_cons, not_or] at hq
        obtain ⟨hq1, hq2⟩ := hq
        rw [ih2 q hq2, hdel, fsLookup_fsDelete_ne fs p q hq1]

/-- C10: a successful `Clean()` removes exactly the files listed in
`VideoPaths` (every listed path is gone, every other path untouched) but
never modifies the `Env` — `VideoPaths` still lists the removed files, so
when it was non-empty a subsequent `Clean()` operates on stale paths and
hits the fatal `os.Remove` failure. -/
theorem clean_preserves_video_paths (e : Env) (fs : FS) (e2 : Env) (fs2 : FS)
    (h : EnvClean e fs = Except.ok (e2, fs2)) :
    e2 = e
    ∧ (∀ p, p ∈ e.videoPaths → fsLookup fs2 p = none)
    ∧ (∀ q, q ∉ e.videoPaths → fsLookup fs2 q = fsLookup fs q)
    ∧ (e.videoPaths ≠ [] → ∃ msg, EnvClean e2 fs2 = Except.error msg) := by
  have hstep : EnvClean e fs
      = match cleanLoop e.videoPaths fs with
        | .error msg => Except.error msg
        | .ok fsx => Except.ok (e, fsx) := rfl
  rcases hc : cleanLoop e.videoPaths fs with msg | fsx
  · rw [hstep, hc] at h
    exact Except.noConfusion h
  · rw [hstep, hc] at h
    injection h with h
    have he : e = e2 := congrArg Prod.fst h
    have hfs : fsx = fs2 := congrArg Prod.snd h
    subst he
    subst hfs
    obtain ⟨h1, h2⟩ := cleanLoop_ok e.videoPaths fs fsx hc
    refine ⟨rfl, h1, h2, ?_⟩
    intro hne
    rcases hvp : e.videoPaths with _ | ⟨p0, rest⟩
    · exact absurd hvp hne
    · refine ⟨"no such file or directory", ?_⟩
      have hl : fsLookup fsx p0 = none :=
        h1 p0 (by rw [hvp]; exact List.mem_cons_self p0 rest)
      have hloop : cleanLoop e.videoPaths fsx = Except.error "no such file or directory" := by
        rw [hvp, cleanLoop_cons]
        unfold osRemove
        rw [hl]
      unfold EnvClean
      rw [hloop]

/-- C10 witness: cleaning `["a", "b"]` out of a filesystem also holding
`"c"` removes `"a"`, keeps `"c"`, returns the `Env` unchanged, and a second
`Clean()` on the unchanged (stale) `VideoPaths` fails. -/
theorem clean_preserves_video_paths_witness :
    EnvClean cleanEnvW cleanFsW = Except.ok (cleanEnvW, cleanFsW2)
    ∧ fsLookup cleanFsW2 "a" = none
    ∧ fsLookup cleanFsW2 "c" = fsLookup cleanFsW "c"
    ∧ ∃ msg, EnvClean cleanEnvW cleanFsW2 = Except.error msg := by
  have h : EnvClean cleanEnvW cleanFsW = Except.ok (cleanEnvW, cleanFsW2) := rfl
  obtain ⟨h1, h2, h3, h4⟩ :=
    clean_preserves_video_paths cleanEnvW cleanFsW cleanEnvW cleanFsW2 h
  exact ⟨h, h2 "a" (by decide), h3 "c" (by decide), h4 (by decide)⟩

/-- C6: the bootstrap of `NewLocalServer` does NOT release the connection
opened by an attempt whose `Info` liveness request fails — no path of the
retry closure calls `conn.Close()`, and the closure in fact panics on the
nil-response dereference in the success log before even returning the
`Info` error — so a run whose first attempt fails at `Info` dies by panic
with one abandoned open connection instead of closing it and retrying;
budget exhaustion (reachable only through dial failures, which create no
connection) yields the connect error with no leaked connection; and a run
whose dial failure is followed by a good attempt connects. -/
theorem bootstrap_leaks_connection :
    retryLoop [AttemptOutcome.infoErr, AttemptOutcome.ok]
        = (RetryResult.panicked, 1)
    ∧ retryLoop [AttemptOutcome.dialErr, AttemptOutcome.dialErr]
        = (RetryResult.exhausted, 0)
    ∧ retryLoop [AttemptOutcome.dialErr, AttemptOutcome.ok]
        = (RetryResult.connected, 0) :=
  ⟨rfl, rfl, rfl⟩

end GoldEnv
